import Mathlib

/-!
Verification of `postproengine/instantaneousplanes.py`, the plugin that
renders instantaneous planar images from netcdf sample planes.

The embedding models, faithfully to the Python source:
* Python `str.format` templates over keyword environments (`pyFormat`),
  as used for the `savefile` / `imagefilename` path templates;
* the plugin/action dispatcher loop of `postpro_instantaneousplanes.execute`
  (`dispatchRun`), lines 168-177 of the source;
* the `trange`-driven replacement of the user iteration list, lines 157-160
  (`resolveIters`);
* the per-frame save loops of the `plot`, `animate`, `makegif` and
  `plot_radial` actions;
* `np.linspace` over the reals (`linspace`), the angular grid of
  `plot_radial` (`thetaGrid`, line 520) and the colorbar tick override of
  `plot` (`cbarTicks`, lines 289-295).
-/

set_option autoImplicit false

namespace InstPlanes

/-! ### Python `str.format` templates

A path template such as the `savefile` option is a sequence of literal
pieces and replacement fields.  `pyFormat` is Python `str.format` with
keyword arguments: a field whose name is not among the keywords raises
`KeyError`, modelled as `Except.error ()`. -/

/-- One token of a format template: a literal piece or a replacement
field such as `time` written between braces in the Python source. -/
inductive Tok where
  | lit (s : String)
  | field (name : String)
  deriving DecidableEq, Repr

/-- A format template is a list of tokens. -/
abbrev Tpl := List Tok

/-- Python `str.format` with keyword environment `env`; a field missing
from `env` raises `KeyError` (`Except.error ()`). -/
def pyFormat (env : List (String × String)) : Tpl → Except Unit String
  | [] => .ok ""
  | Tok.lit s :: rest => (pyFormat env rest).map (fun r => s ++ r)
  | Tok.field n :: rest =>
    match env.lookup n with
    | some v => (pyFormat env rest).map (fun r => v ++ r)
    | none => .error ()

/-- Total substitution: every field is replaced by its value in `env`
(empty string when absent).  `pyFormat` agrees with it whenever every
field of the template is bound in `env`. -/
def substTotal (env : List (String × String)) : Tpl → String
  | [] => ""
  | Tok.lit s :: rest => s ++ substTotal env rest
  | Tok.field n :: rest => ((env.lookup n).getD "") ++ substTotal env rest

/-- Keyword environment given by `plot.execute` (line 344) and
`animate.execute` (line 393): `time`, `iplane` and `iter` are all bound. -/
def plotEnv (time iplane iterv : String) : List (String × String) :=
  [("time", time), ("iplane", iplane), ("iter", iterv)]

/-- Keyword environment given by `makegif.execute` (line 451) and
`plot_radial.execute` (line 549): only `time` and `iplane` are bound. -/
def gifEnv (time iplane : String) : List (String × String) :=
  [("time", time), ("iplane", iplane)]

theorem pyFormat_eq_ok (env : List (String × String)) (tpl : Tpl)
    (h : ∀ n, Tok.field n ∈ tpl → (env.lookup n).isSome) :
    pyFormat env tpl = .ok (substTotal env tpl) := by
  induction tpl with
  | nil => rfl
  | cons tok rest ih =>
    cases tok with
    | lit s =>
      have := ih (fun n hn => h n (List.mem_cons_of_mem _ hn))
      simp [pyFormat, substTotal, this, Except.map]
    | field n =>
      have hn := h n (List.mem_cons_self _ _)
      obtain ⟨v, hv⟩ := Option.isSome_iff_exists.mp hn
      have := ih (fun m hm => h m (List.mem_cons_of_mem _ hm))
      simp [pyFormat, substTotal, hv, this, Except.map]

theorem pyFormat_error_of_missing (env : List (String × String)) (tpl : Tpl)
    (n : String) (hmem : Tok.field n ∈ tpl) (hl : env.lookup n = none) :
    pyFormat env tpl = .error () := by
  induction tpl with
  | nil => simp at hmem
  | cons tok rest ih =>
    cases tok with
    | lit s =>
      have hr : Tok.field n ∈ rest := by
        rcases List.mem_cons.mp hmem with h | h
        · exact absurd h (by simp)
        · exact h
      simp [pyFormat, ih hr, Except.map]
    | field m =>
      rcases List.mem_cons.mp hmem with h | h
      · obtain rfl : m = n := by injection h.symm
        simp [pyFormat, hl]
      · cases hm : env.lookup m with
        | none => simp [pyFormat, hm]
        | some v => simp [pyFormat, hm, ih h, Except.map]

/-! ### The action dispatcher

`postpro_instantaneousplanes.execute`, lines 168-177: iterate over the
registered action list; if an action's `required` flag is set and its
key is absent from the plane's yaml configuration, raise `ValueError`;
an action whose key is present is constructed and executed; an action
whose key is absent is skipped.  `dispatchRun keys acts` returns the
names of the actions actually executed, paired with `some name` when a
`ValueError` terminated the loop at the action called `name`. -/

/-- A registered action as the dispatcher sees it: its name and its
`required` class attribute. -/
structure ActionDef where
  aname : String
  required : Bool
  deriving DecidableEq, Repr

/-- The dispatcher loop over the registered actions (lines 169-177).
First component: names of the actions executed, in order.  Second
component: `some n` when the loop raised `ValueError` at required
action `n` (terminating the run), `none` otherwise. -/
def dispatchRun (keys : List String) : List ActionDef → List String × Option String
  | [] => ([], none)
  | a :: rest =>
    if a.required = true ∧ a.aname ∉ keys then ([], some a.aname)
    else
      let r := dispatchRun keys rest
      ((if a.aname ∈ keys then a.aname :: r.1 else r.1), r.2)

theorem dispatchRun_exec_mem_keys (keys : List String) (acts : List ActionDef)
    (x : String) (hx : x ∈ (dispatchRun keys acts).1) : x ∈ keys := by
  induction acts with
  | nil => simp [dispatchRun] at hx
  | cons a rest ih =>
    by_cases hc : a.required = true ∧ a.aname ∉ keys
    · simp [dispatchRun, hc] at hx
    · simp only [dispatchRun, if_neg hc] at hx
      by_cases hk : a.aname ∈ keys
      · rw [if_pos hk] at hx
        rcases List.mem_cons.mp hx with h | h
        · exact h ▸ hk
        · exact ih h
      · rw [if_neg hk] at hx
        exact ih hx

theorem dispatchRun_err_iff (keys : List String) (acts : List ActionDef) :
    (dispatchRun keys acts).2.isSome ↔
      ∃ a ∈ acts, a.required = true ∧ a.aname ∉ keys := by
  induction acts with
  | nil => simp [dispatchRun]
  | cons a rest ih =>
    by_cases hc : a.required = true ∧ a.aname ∉ keys
    · simp [dispatchRun, hc]
    · simp only [dispatchRun, if_neg hc]
      constructor
      · intro h
        obtain ⟨b, hb, hreq⟩ := ih.mp h
        exact ⟨b, List.mem_cons_of_mem _ hb, hreq⟩
      · rintro ⟨b, hb, hreq⟩
        rcases List.mem_cons.mp hb with rfl | hb
        · exact absurd hreq hc
        · exact ih.mpr ⟨b, hb, hreq⟩

theorem dispatchRun_present_executed (keys : List String) (acts : List ActionDef)
    (hok : ∀ a ∈ acts, a.required = true → a.aname ∈ keys) :
    ∀ a ∈ acts, a.aname ∈ keys → a.aname ∈ (dispatchRun keys acts).1 := by
  induction acts with
  | nil => intro a ha; simp at ha
  | cons b rest ih =>
    intro a ha hak
    have hc : ¬(b.required = true ∧ b.aname ∉ keys) := by
      rintro ⟨hreq, habs⟩
      exact habs (hok b (List.mem_cons_self _ _) hreq)
    simp only [dispatchRun, if_neg hc]
    rcases List.mem_cons.mp ha with rfl | ha
    · rw [if_pos hak]; exact List.mem_cons_self _ _
    · have htail := ih (fun c hc hr => hok c (List.mem_cons_of_mem _ hc) hr) a ha hak
      by_cases hk : b.aname ∈ keys
      · rw [if_pos hk]; exact List.mem_cons_of_mem _ htail
      · rw [if_neg hk]; exact htail

/-- C1: in `execute` (lines 168-177), the dispatcher raises `ValueError`
exactly when some registered action with `required = True` has no key in
the plane's configuration; a non-required action whose key is absent is
never executed; and when no required action is missing, every action
whose key is present is executed. -/
theorem dispatch_required_and_skip (acts : List ActionDef) (keys : List String) :
    ((dispatchRun keys acts).2.isSome ↔
        ∃ a ∈ acts, a.required = true ∧ a.aname ∉ keys) ∧
    (∀ a ∈ acts, a.required = false → a.aname ∉ keys →
        a.aname ∉ (dispatchRun keys acts).1) ∧
    ((∀ a ∈ acts, a.required = true → a.aname ∈ keys) →
        ∀ a ∈ acts, a.aname ∈ keys → a.aname ∈ (dispatchRun keys acts).1) := by
  refine ⟨dispatchRun_err_iff keys acts, ?_, dispatchRun_present_executed keys acts⟩
  intro a _ _ habs hmem
  exact habs (dispatchRun_exec_mem_keys keys acts a.aname hmem)

/-- Witness for C1, at the concrete registered list of this plugin (all
five actions have `required = False`; a sixth, required one is added to
exercise the error branch). -/
theorem dispatch_required_and_skip_witness :
    ((dispatchRun ["plot"] [⟨"plot", false⟩, ⟨"interpolate", false⟩,
        ⟨"animate", false⟩, ⟨"makegif", false⟩, ⟨"plot_radial", false⟩]).1
      = ["plot"]) ∧
    (dispatchRun ["name"] [⟨"checkme", true⟩]).2.isSome = true ∧
    "animate" ∉ (dispatchRun ["plot"] [⟨"plot", false⟩, ⟨"interpolate", false⟩,
        ⟨"animate", false⟩, ⟨"makegif", false⟩, ⟨"plot_radial", false⟩]).1 := by
  refine ⟨by decide, ?_, ?_⟩
  · exact (dispatch_required_and_skip [⟨"checkme", true⟩] ["name"]).1.mpr
      ⟨⟨"checkme", true⟩, by decide, rfl, by decide⟩
  · exact (dispatch_required_and_skip [⟨"plot", false⟩, ⟨"interpolate", false⟩,
        ⟨"animate", false⟩, ⟨"makegif", false⟩, ⟨"plot_radial", false⟩]
        ["plot"]).2.1 ⟨"animate", false⟩ (by decide) rfl (by decide)

/-! ### Resolution of the iteration list from `trange`

Lines 157-160 of `execute`: after loading the plane the code runs
`if not self.trange == 'None': iters = self.db['timesteps']`, then
stores `self.iters = iters` for every action to read.  The `trange`
yaml value is either absent (Python `None`, the default), a string, or
a two-element time range; the comparison with the string `None` is
Python `==`. -/

/-- The possible values of the `trange` configuration option. -/
inductive Trange where
  | pynone
  | str (s : String)
  | interval (lo hi : Int)
  deriving DecidableEq, Repr

/-- Python `self.trange == 'None'`: true exactly when the value is the
string `None`. -/
def trangeIsStrNone : Trange → Bool
  | .str s => s == "None"
  | _ => false

/-- Lines 157-160: the iteration list the actions see.  The user list
survives only when `trange` equals the string `None`; otherwise it is
replaced by the loaded dataset's `timesteps`. -/
def resolveIters (trange : Trange) (userIters timesteps : List Int) : List Int :=
  if trangeIsStrNone trange then userIters else timesteps

/-- C9: for every `trange` other than the literal string `None`
(including the default Python `None` and genuine time ranges), the
resolved iteration list is the dataset's `timesteps`; the user-supplied
`iters` is kept only when `trange` is the string `None`. -/
theorem trange_iters_resolution (t : Trange) (userIters timesteps : List Int) :
    (t ≠ Trange.str "None" → resolveIters t userIters timesteps = timesteps) ∧
    (t = Trange.str "None" → resolveIters t userIters timesteps = userIters) := by
  constructor
  · intro hne
    have hb : trangeIsStrNone t = false := by
      cases t with
      | pynone => rfl
      | interval lo hi => rfl
      | str s =>
        have : s ≠ "None" := fun h => hne (by rw [h])
        simp [trangeIsStrNone, this]
    simp [resolveIters, hb]
  · rintro rfl
    simp [resolveIters, trangeIsStrNone]

/-- Witness for C9: the default `None` value replaces the user list;
the string `None` keeps it. -/
theorem trange_iters_resolution_witness :
    resolveIters Trange.pynone [7] [1, 2] = [1, 2] ∧
    resolveIters (Trange.str "None") [7] [1, 2] = [7] :=
  ⟨(trange_iters_resolution Trange.pynone [7] [1, 2]).1 (by decide),
   (trange_iters_resolution (Trange.str "None") [7] [1, 2]).2 rfl⟩

/-! ### Per-frame filename construction

Each rendering or animation action builds one filename per frame by
formatting its path template.  `plot` (line 344) and `animate`
(line 393) pass `time`, `iplane` and `iter` as keywords; `makegif`
(line 451) and `plot_radial` (line 549) pass only `time` and `iplane`. -/

/-- Line 344: `savefile.format(time=time, iplane=iplane, iter=i)`. -/
def plotFrameName (tpl : Tpl) (time iplane iterv : String) : Except Unit String :=
  pyFormat (plotEnv time iplane iterv) tpl

/-- Line 393: `imagefilename.format(time=time, iplane=iplane, iter=i)`. -/
def animateFrameName (tpl : Tpl) (time iplane iterv : String) : Except Unit String :=
  pyFormat (plotEnv time iplane iterv) tpl

/-- Line 451: `imagefilename.format(time=time, iplane=iplane)`. -/
def makegifFrameName (tpl : Tpl) (time iplane : String) : Except Unit String :=
  pyFormat (gifEnv time iplane) tpl

/-- Line 549: `savefile.format(time=time, iplane=iplane)`. -/
def plotRadialFrameName (tpl : Tpl) (time iplane : String) : Except Unit String :=
  pyFormat (gifEnv time iplane) tpl

theorem plotEnv_lookup_isSome (t ip it n : String)
    (hn : n = "time" ∨ n = "iplane" ∨ n = "iter") :
    ((plotEnv t ip it).lookup n).isSome := by
  rcases hn with rfl | rfl | rfl <;> rfl

theorem gifEnv_lookup_isSome (t ip n : String)
    (hn : n = "time" ∨ n = "iplane") :
    ((gifEnv t ip).lookup n).isSome := by
  rcases hn with rfl | rfl <;> rfl

/-! ### The `plot` save loop

`plot.execute`, lines 266-348: for each `(iplot, i)` in
`enumerate(self.parent.iters)` the plot is drawn and, when the
`savefile` option is a non-empty string, saved under the formatted
name; `time` is `self.parent.db['times'][iplot]`, so the iteration list
and the time vector are consumed in parallel (an out-of-range index
raises, modelled as `Except.error`). -/

/-- The sequence of filenames written by the save loop of
`plot.execute`, consuming the resolved iteration list and the dataset's
time vector in parallel. -/
def plotSaves (tpl : Tpl) (iplane : String) :
    List String → List String → Except Unit (List String)
  | [], _ => .ok []
  | _ :: _, [] => .error ()
  | i :: is, t :: ts => do
    let f ← plotFrameName tpl t iplane i
    let r ← plotSaves tpl iplane is ts
    .ok (f :: r)

/-- `plot.execute` saves nothing when `savefile` is empty
(`len(savefile) > 0`, line 343); otherwise it runs the save loop. -/
def plotExecuteSaves (tpl : Tpl) (iplane : String)
    (iters times : List String) : Except Unit (List String) :=
  if tpl = [] then .ok [] else plotSaves tpl iplane iters times

theorem plotSaves_eq_ok (tpl : Tpl) (iplane : String)
    (hfields : ∀ n, Tok.field n ∈ tpl → n = "time" ∨ n = "iplane" ∨ n = "iter") :
    ∀ iters times : List String, iters.length = times.length →
      plotSaves tpl iplane iters times =
        .ok (List.zipWith (fun i t => substTotal (plotEnv t iplane i) tpl) iters times) := by
  intro iters
  induction iters with
  | nil =>
    intro times hlen
    obtain rfl : times = [] := List.eq_nil_of_length_eq_zero hlen.symm
    rfl
  | cons i is ih =>
    intro times hlen
    cases times with
    | nil => simp at hlen
    | cons t ts =>
      have hfmt : plotFrameName tpl t iplane i =
          .ok (substTotal (plotEnv t iplane i) tpl) :=
        pyFormat_eq_ok _ tpl (fun n hn =>
          plotEnv_lookup_isSome t iplane i n (hfields n hn))
      have hrec := ih ts (by simpa using hlen)
      simp only [plotSaves, hfmt, hrec, List.zipWith]
      rfl

/-- C2: with `N` resolved iterations, a parallel time vector and a
non-empty `savefile` template over the supported placeholders, the
`plot` action saves exactly `N` files, the `k`-th obtained by
substituting the `k`-th time, the plane index and the `k`-th iteration
index into the template. -/
theorem plot_saves_per_iteration (tpl : Tpl) (iplane : String)
    (iters times : List String) (N : ℕ)
    (htpl : tpl ≠ [])
    (hfields : ∀ n, Tok.field n ∈ tpl → n = "time" ∨ n = "iplane" ∨ n = "iter")
    (hi : iters.length = N) (ht : times.length = N) :
    plotExecuteSaves tpl iplane iters times =
      .ok (List.zipWith (fun i t => substTotal (plotEnv t iplane i) tpl) iters times) ∧
    (List.zipWith (fun i t => substTotal (plotEnv t iplane i) tpl) iters times).length = N := by
  constructor
  · rw [plotExecuteSaves, if_neg htpl]
    exact plotSaves_eq_ok tpl iplane hfields iters times (hi.trans ht.symm)
  · rw [List.length_zipWith, hi, ht, min_self]

/-- Witness for C2 at a concrete template and two iterations. -/
theorem plot_saves_per_iteration_witness :
    plotExecuteSaves [Tok.lit "inst_test_", Tok.field "iter", Tok.lit ".png"] "0"
        ["10", "20"] ["1.5", "2.5"] =
      .ok ["inst_test_10.png", "inst_test_20.png"] ∧
    (2 : ℕ) = 2 := by
  have h := plot_saves_per_iteration
    [Tok.lit "inst_test_", Tok.field "iter", Tok.lit ".png"] "0"
    ["10", "20"] ["1.5", "2.5"] 2 (by decide)
    (by intro n hn; simp at hn; exact Or.inr (Or.inr hn)) rfl rfl
  exact ⟨h.1.trans (by rfl), rfl⟩

/-! ### The `makegif` frame sequence

`makegif.execute`, lines 420-461: the `times` option is passed through
Python `eval` inside `try/except`.  When the evaluation succeeds with a
list (`override_times = True`) the loop runs over `range(len(times))`
and each entry of that list becomes the `time` keyword of the filename
template.  When it fails — including at the default `None`, which
`eval` rejects — the exception is swallowed and the loop runs over the
parent's resolved `iters`, taking `time` from the parent's
`db['times']` vector in parallel.  The outcome of the `eval` call is
modelled as an `Option (List String)` parameter. -/

/-- The fallback branch of the `makegif` frame loop (lines 444-451):
enumerate the parent's resolved iteration list, take the time from the
parent's time vector at the same position, format with `time` and
`iplane` only. -/
def gifFallbackFrames (tpl : Tpl) (iplane : String) :
    List String → List String → Except Unit (List String)
  | [], _ => .ok []
  | _ :: _, [] => .error ()
  | _ :: is, t :: ts => do
    let f ← makegifFrameName tpl t iplane
    let r ← gifFallbackFrames tpl iplane is ts
    .ok (f :: r)

/-- The frame filename sequence built by `makegif.execute`
(lines 432-451).  `evalTimes` is the outcome of `eval` on the `times`
option: `some ts` when it evaluated to a list, `none` when it raised
(the default `None` included). -/
def makegifFrames (evalTimes : Option (List String)) (tpl : Tpl) (iplane : String)
    (parentIters parentTimes : List String) : Except Unit (List String) :=
  match evalTimes with
  | some ts => ts.mapM (fun t => makegifFrameName tpl t iplane)
  | none => gifFallbackFrames tpl iplane parentIters parentTimes

theorem makegif_mapM_eq_ok (tpl : Tpl) (iplane : String)
    (hfields : ∀ n, Tok.field n ∈ tpl → n = "time" ∨ n = "iplane") (ts : List String) :
    ts.mapM (fun t => makegifFrameName tpl t iplane) =
      .ok (ts.map (fun t => substTotal (gifEnv t iplane) tpl)) := by
  induction ts with
  | nil => rfl
  | cons t ts ih =>
    have hfmt : makegifFrameName tpl t iplane =
        .ok (substTotal (gifEnv t iplane) tpl) :=
      pyFormat_eq_ok _ tpl (fun n hn => gifEnv_lookup_isSome t iplane n (hfields n hn))
    rw [List.mapM_cons, hfmt, ih]
    rfl

theorem gifFallbackFrames_eq_ok (tpl : Tpl) (iplane : String)
    (hfields : ∀ n, Tok.field n ∈ tpl → n = "time" ∨ n = "iplane") :
    ∀ iters times : List String, iters.length = times.length →
      gifFallbackFrames tpl iplane iters times =
        .ok (List.zipWith (fun _ t => substTotal (gifEnv t iplane) tpl) iters times) := by
  intro iters
  induction iters with
  | nil =>
    intro times hlen
    obtain rfl : times = [] := List.eq_nil_of_length_eq_zero hlen.symm
    rfl
  | cons i is ih =>
    intro times hlen
    cases times with
    | nil => simp at hlen
    | cons t ts =>
      have hfmt : makegifFrameName tpl t iplane =
          .ok (substTotal (gifEnv t iplane) tpl) :=
        pyFormat_eq_ok _ tpl (fun n hn => gifEnv_lookup_isSome t iplane n (hfields n hn))
      have hrec := ih ts (by simpa using hlen)
      simp only [gifFallbackFrames, hfmt, hrec, List.zipWith]
      rfl

/-- C5: when the `times` override fails to evaluate (default `None`
included), `makegif` takes the fallback branch, raises nothing on that
path, and builds its frame names from the parent's resolved iteration
list paired with the parent's per-iteration time values. -/
theorem makegif_fallback_uses_parent (tpl : Tpl) (iplane : String)
    (parentIters parentTimes : List String) (N : ℕ)
    (hfields : ∀ n, Tok.field n ∈ tpl → n = "time" ∨ n = "iplane")
    (hi : parentIters.length = N) (ht : parentTimes.length = N) :
    makegifFrames none tpl iplane parentIters parentTimes =
      gifFallbackFrames tpl iplane parentIters parentTimes ∧
    makegifFrames none tpl iplane parentIters parentTimes =
      .ok (List.zipWith (fun _ t => substTotal (gifEnv t iplane) tpl)
        parentIters parentTimes) := by
  refine ⟨rfl, ?_⟩
  exact gifFallbackFrames_eq_ok tpl iplane hfields parentIters parentTimes
    (hi.trans ht.symm)

/-- Witness for C5: failed evaluation falls back to the parent's two
iterations and times. -/
theorem makegif_fallback_uses_parent_witness :
    makegifFrames none [Tok.lit "img_", Tok.field "time", Tok.lit ".png"] "0"
        ["10", "20"] ["1.5", "2.5"] =
      .ok ["img_1.5.png", "img_2.5.png"] := by
  have h := makegif_fallback_uses_parent
    [Tok.lit "img_", Tok.field "time", Tok.lit ".png"] "0"
    ["10", "20"] ["1.5", "2.5"] 2
    (by intro n hn; simp at hn; exact Or.inl hn) rfl rfl
  exact h.2.trans (by rfl)

/-- C8: when the `times` override evaluates to an explicit list `ts`,
`makegif` builds exactly one frame per entry of `ts`, substituting that
entry as the `time` placeholder, independent of the parent's iteration
list and time vector. -/
theorem makegif_times_override (ts : List String) (tpl : Tpl) (iplane : String)
    (parentIters parentTimes : List String)
    (hfields : ∀ n, Tok.field n ∈ tpl → n = "time" ∨ n = "iplane") :
    makegifFrames (some ts) tpl iplane parentIters parentTimes =
      .ok (ts.map (fun t => substTotal (gifEnv t iplane) tpl)) ∧
    (ts.map (fun t => substTotal (gifEnv t iplane) tpl)).length = ts.length ∧
    (∀ pI pT : List String,
      makegifFrames (some ts) tpl iplane pI pT =
        makegifFrames (some ts) tpl iplane parentIters parentTimes) := by
  refine ⟨makegif_mapM_eq_ok tpl iplane hfields ts, List.length_map _ _, ?_⟩
  intro pI pT
  rfl

/-- Witness for C8: an explicit two-entry override produces two frames
named by the override entries, not by the parent's times. -/
theorem makegif_times_override_witness :
    makegifFrames (some ["1100", "1200"])
        [Tok.lit "img_", Tok.field "time", Tok.lit ".png"] "0"
        ["10", "20", "30"] ["1.5", "2.5", "3.5"] =
      .ok ["img_1100.png", "img_1200.png"] := by
  have h := makegif_times_override ["1100", "1200"]
    [Tok.lit "img_", Tok.field "time", Tok.lit ".png"] "0"
    ["10", "20", "30"] ["1.5", "2.5", "3.5"]
    (by intro n hn; simp at hn; exact Or.inl hn)
  exact h.1.trans (by rfl)

/-! ### Reading frames back during animation assembly

`makegif.execute`, lines 454-460: each filename is read with
`cv2.imread`, which returns `None` for an unreadable image; only frames
with `img is not None` are converted (`cvtColor`) and appended, so
unreadable frames are skipped and the rest encoded.

`animate.execute`, lines 394-400: the first filename is read and
`frame.shape` is taken with no `None` check — an unreadable first image
raises `AttributeError` — and every subsequent frame is passed to
`video.write(cv2.imread(image))` unconditionally, where a `None` frame
raises inside OpenCV.  Image decoding is modelled by a function
`read : String → Option Img` and colour conversion by `convert`. -/

/-- The `imagedat` list built by `makegif.execute` (lines 454-459):
frames whose read returns `None` are skipped, the others converted and
kept in order. -/
def makegifImagedat {Img : Type} (read : String → Option Img)
    (convert : Img → Img) : List String → List Img
  | [] => []
  | f :: fs =>
    match read f with
    | some img => convert img :: makegifImagedat read convert fs
    | none => makegifImagedat read convert fs

/-- The encoding phase of `animate.execute` (lines 394-400): the first
frame is read to take its shape (raising when unreadable or when the
list is empty), then every frame is read and written to the video with
no `None` guard. -/
def animateEncode {Img : Type} (read : String → Option Img)
    (images : List String) : Except Unit (List Img) :=
  match images with
  | [] => .error ()
  | f0 :: _ =>
    match read f0 with
    | none => .error ()
    | some _ => images.mapM (fun f =>
        match read f with
        | some img => Except.ok img
        | none => Except.error ())

/-- A concrete image reader for counterexamples: only `b.png` decodes. -/
def badReadExample : String → Option Unit :=
  fun f => bif f == "b.png" then some () else none

/-- Counterexample to C6 as stated: with a reader under which `a.png`
is unreadable and `b.png` is readable, `animate` fails outright instead
of skipping the unreadable frame and encoding the readable one. -/
theorem animate_unreadable_fails_cex :
    badReadExample "a.png" = none ∧ badReadExample "b.png" = some () ∧
    animateEncode badReadExample ["a.png", "b.png"] = Except.error () :=
  ⟨rfl, rfl, rfl⟩

/-- C6 amended: in `makegif` every unreadable frame is skipped and the
readable frames are still encoded, in order, with no possible failure;
the `animate` action, by contrast, fails whenever its first frame is
unreadable. -/
theorem makegif_skips_animate_fails {Img : Type} (read : String → Option Img)
    (convert : Img → Img) (files : List String) :
    makegifImagedat read convert files =
      files.filterMap (fun f => (read f).map convert) ∧
    (∀ f0 rest, read f0 = none →
      animateEncode read (f0 :: rest) = Except.error ()) := by
  constructor
  · induction files with
    | nil => rfl
    | cons f fs ih =>
      cases hf : read f with
      | none => simp [makegifImagedat, hf, ih, List.filterMap_cons]
      | some img => simp [makegifImagedat, hf, ih, List.filterMap_cons]
  · intro f0 rest h
    simp [animateEncode, h]

/-- Witness for C6 amended, at the concrete reader: the unreadable
`a.png` is dropped from the gif while `b.png` survives, and `animate`
fails on an unreadable first frame. -/
theorem makegif_skips_animate_fails_witness :
    makegifImagedat badReadExample id ["a.png", "b.png"] = [()] ∧
    animateEncode badReadExample ["c.png"] = Except.error () :=
  ⟨(makegif_skips_animate_fails badReadExample id ["a.png", "b.png"]).1.trans (by rfl),
   (makegif_skips_animate_fails badReadExample id []).2 "c.png" [] rfl⟩

/-- Counterexample to C7 as stated: a template consisting of the
`iter` placeholder alone is rejected (`KeyError`) by the `makegif` and
`plot_radial` filename formatting, though `plot` accepts it. -/
theorem iter_placeholder_rejected_cex :
    makegifFrameName [Tok.field "iter"] "1.5" "0" = Except.error () ∧
    plotRadialFrameName [Tok.field "iter"] "1.5" "0" = Except.error () ∧
    plotFrameName [Tok.field "iter"] "1.5" "0" "10" = Except.ok "10" :=
  ⟨rfl, rfl, rfl⟩

/-- C7 amended: templates over `time`, `iplane`, `iter` are accepted
and fully resolved by the `plot` savefile and `animate` imagefilename
formatting; the `makegif` imagefilename and `plot_radial` savefile
resolve only `time` and `iplane`, and any template containing the
`iter` placeholder raises `KeyError` there; each placeholder resolves
to the corresponding frame value. -/
theorem placeholder_resolution (tpl : Tpl) (t ip it : String) :
    ((∀ n, Tok.field n ∈ tpl → n = "time" ∨ n = "iplane" ∨ n = "iter") →
      plotFrameName tpl t ip it = .ok (substTotal (plotEnv t ip it) tpl) ∧
      animateFrameName tpl t ip it = .ok (substTotal (plotEnv t ip it) tpl)) ∧
    ((∀ n, Tok.field n ∈ tpl → n = "time" ∨ n = "iplane") →
      makegifFrameName tpl t ip = .ok (substTotal (gifEnv t ip) tpl) ∧
      plotRadialFrameName tpl t ip = .ok (substTotal (gifEnv t ip) tpl)) ∧
    (Tok.field "iter" ∈ tpl →
      makegifFrameName tpl t ip = Except.error () ∧
      plotRadialFrameName tpl t ip = Except.error ()) ∧
    substTotal (plotEnv t ip it) [Tok.field "time"] = t ∧
    substTotal (plotEnv t ip it) [Tok.field "iplane"] = ip ∧
    substTotal (plotEnv t ip it) [Tok.field "iter"] = it ∧
    substTotal (gifEnv t ip) [Tok.field "time"] = t ∧
    substTotal (gifEnv t ip) [Tok.field "iplane"] = ip := by
  refine ⟨?_, ?_, ?_, ?_, ?_, ?_, ?_, ?_⟩
  · intro hf
    have h := pyFormat_eq_ok (plotEnv t ip it) tpl
      (fun n hn => plotEnv_lookup_isSome t ip it n (hf n hn))
    exact ⟨h, h⟩
  · intro hf
    have h := pyFormat_eq_ok (gifEnv t ip) tpl
      (fun n hn => gifEnv_lookup_isSome t ip n (hf n hn))
    exact ⟨h, h⟩
  · intro hmem
    have h := pyFormat_error_of_missing (gifEnv t ip) tpl "iter" hmem rfl
    exact ⟨h, h⟩
  · simp [substTotal, plotEnv, List.lookup]
  · simp [substTotal, plotEnv, List.lookup]
  · simp [substTotal, plotEnv, List.lookup]
  · simp [substTotal, gifEnv, List.lookup]
  · simp [substTotal, gifEnv, List.lookup]

/-- Witness for C7 amended at concrete templates: `plot` resolves the
`iter` placeholder, `makegif` resolves the `time` placeholder. -/
theorem placeholder_resolution_witness :
    plotFrameName [Tok.lit "f_", Tok.field "iter"] "1.5" "0" "10" = Except.ok "f_10" ∧
    makegifFrameName [Tok.lit "f_", Tok.field "time"] "1.5" "0" = Except.ok "f_1.5" := by
  have h := placeholder_resolution [Tok.lit "f_", Tok.field "iter"] "1.5" "0" "10"
  have h2 := placeholder_resolution [Tok.lit "f_", Tok.field "time"] "1.5" "0" "10"
  constructor
  · exact ((h.1 (by intro n hn; simp at hn; exact Or.inr (Or.inr hn))).1).trans (by rfl)
  · exact ((h2.2.1 (by intro n hn; simp at hn; exact Or.inl hn)).1).trans (by rfl)

/-! ### `np.linspace`, the polar grid and the colorbar ticks

`np.linspace(a, b, n)` returns `n` evenly spaced samples from `a` to
`b` inclusive: entry `i` is `a + i * (b - a) / (n - 1)`; for `n = 1`
the single entry is `a` and for `n = 0` the array is empty.  The
definition is polymorphic in the scalar field (instantiated at `ℝ` in
the theorems, where the division-by-zero convention `x / 0 = 0` makes
the `n = 1` case come out to `[a]` exactly as in numpy).

`plot_radial.execute`, lines 518-520: `LTheta = 2 * np.pi`,
`r = np.linspace(0, LR, NR)` and
`theta = np.linspace(0, LTheta, NTheta + 1)[0:-1]`, the slice dropping
the final wrap entry.

`plot.execute`, lines 289-295: when `cbar_nticks` is given, the ticks
set on the colorbar are `np.linspace(levels[0], levels[-1],
cbar_nticks)` where `levels` are the contour levels. -/

/-- Entry `i` of `np.linspace a b n` for `i < n`. -/
def linspace {K : Type} [Field K] (a b : K) (n : ℕ) : List K :=
  (List.range n).map (fun (i : ℕ) => a + (i : K) * (b - a) / ((n : K) - 1))

/-- The radial grid of `plot_radial` (line 519). -/
def rGrid {K : Type} [Field K] (LR : K) (NR : ℕ) : List K :=
  linspace 0 LR NR

/-- The angular grid of `plot_radial` (line 520): a full turn sampled
at `NTheta + 1` points with the duplicate wrap point dropped. -/
def thetaGrid {K : Type} [Field K] (pi : K) (NTheta : ℕ) : List K :=
  (linspace 0 (2 * pi) (NTheta + 1)).dropLast

/-- The colorbar tick override of `plot` (lines 289-295): `levels[0]`
and `levels[-1]` raise on an empty array, modelled by `Option`. -/
def cbarTicks {K : Type} [Field K] (levels : List K) (k : ℕ) : Option (List K) :=
  match levels.head?, levels.getLast? with
  | some a, some b => some (linspace a b k)
  | _, _ => none

theorem linspace_length {K : Type} [Field K] (a b : K) (n : ℕ) :
    (linspace a b n).length = n := by
  rw [linspace, List.length_map, List.length_range]

theorem linspace_get? {K : Type} [Field K] (a b : K) (n i : ℕ) (hi : i < n) :
    (linspace a b n).get? i = some (a + (i : K) * (b - a) / ((n : K) - 1)) := by
  rw [linspace, List.get?_map, List.get?_range hi]
  rfl

theorem thetaGrid_length {K : Type} [Field K] (pi : K) (NTheta : ℕ) :
    (thetaGrid pi NTheta).length = NTheta := by
  rw [thetaGrid, List.length_dropLast, linspace_length, Nat.add_sub_cancel]

theorem thetaGrid_get? {K : Type} [Field K] (pi : K) (NTheta k : ℕ)
    (hk : k < NTheta) :
    (thetaGrid pi NTheta).get? k = some ((k : K) * (2 * pi) / (NTheta : K)) := by
  have hk' : k < NTheta + 1 := Nat.lt_succ_of_lt hk
  have h1 : (thetaGrid pi NTheta).get? k =
      (linspace 0 (2 * pi) (NTheta + 1)).get? k := by
    rw [thetaGrid, List.dropLast_eq_take, linspace_length, Nat.add_sub_cancel,
      List.get?_eq_getElem?, List.get?_eq_getElem?, List.getElem?_take_of_lt hk]
  rw [h1, linspace_get? _ _ _ _ hk']
  congr 1
  push_cast
  rw [add_sub_cancel_right, zero_add, sub_zero]

/-- C3: for `NR ≥ 1` and `NTheta ≥ 1` the angular grid has exactly
`NTheta` entries, starts at `0`, stays strictly below `2π`, is strictly
increasing, and has consecutive spacing `2π / NTheta` (and the radial
grid has `NR` entries). -/
theorem thetaGrid_angular_spec (NR NTheta : ℕ) (LR : ℝ)
    (hNR : 1 ≤ NR) (hNT : 1 ≤ NTheta) :
    (thetaGrid Real.pi NTheta).length = NTheta ∧
    (rGrid LR NR).length = NR ∧
    (thetaGrid Real.pi NTheta).get? 0 = some 0 ∧
    (∀ x ∈ thetaGrid Real.pi NTheta, x < 2 * Real.pi) ∧
    (∀ j k : ℕ, ∀ x y : ℝ, j < k →
      (thetaGrid Real.pi NTheta).get? j = some x →
      (thetaGrid Real.pi NTheta).get? k = some y → x < y) ∧
    (∀ k : ℕ, ∀ x y : ℝ,
      (thetaGrid Real.pi NTheta).get? k = some x →
      (thetaGrid Real.pi NTheta).get? (k + 1) = some y →
      y - x = 2 * Real.pi / (NTheta : ℝ)) := by
  have hNT0 : (0 : ℝ) < (NTheta : ℝ) := by exact_mod_cast hNT
  have h2pi : (0 : ℝ) < 2 * Real.pi := by positivity
  refine ⟨thetaGrid_length _ _, by simp [rGrid, linspace_length], ?_, ?_, ?_, ?_⟩
  · rw [thetaGrid_get? Real.pi NTheta 0 hNT]
    simp
  · intro x hx
    obtain ⟨n, hn⟩ := List.mem_iff_get?.mp hx
    have hlen : n < NTheta := by
      have h1 := (List.get?_eq_some.mp hn).1
      rwa [thetaGrid_length] at h1
    rw [thetaGrid_get? Real.pi NTheta n hlen] at hn
    obtain rfl : (n : ℝ) * (2 * Real.pi) / (NTheta : ℝ) = x := by injection hn
    rw [div_lt_iff₀ hNT0]
    have hcast : (n : ℝ) < (NTheta : ℝ) := by exact_mod_cast hlen
    calc (n : ℝ) * (2 * Real.pi) < (NTheta : ℝ) * (2 * Real.pi) :=
          (mul_lt_mul_right h2pi).mpr hcast
      _ = 2 * Real.pi * (NTheta : ℝ) := by ring
  · intro j k x y hjk hj hk
    have hklen : k < NTheta := by
      have h1 := (List.get?_eq_some.mp hk).1
      rwa [thetaGrid_length] at h1
    have hjlen : j < NTheta := lt_trans hjk hklen
    rw [thetaGrid_get? Real.pi NTheta j hjlen] at hj
    rw [thetaGrid_get? Real.pi NTheta k hklen] at hk
    obtain rfl : (j : ℝ) * (2 * Real.pi) / (NTheta : ℝ) = x := by injection hj
    obtain rfl : (k : ℝ) * (2 * Real.pi) / (NTheta : ℝ) = y := by injection hk
    have hcast : (j : ℝ) < (k : ℝ) := by exact_mod_cast hjk
    gcongr
  · intro k x y hk hk1
    have hk1len : k + 1 < NTheta := by
      have h1 := (List.get?_eq_some.mp hk1).1
      rwa [thetaGrid_length] at h1
    have hklen : k < NTheta := Nat.lt_of_succ_lt hk1len
    rw [thetaGrid_get? Real.pi NTheta k hklen] at hk
    rw [thetaGrid_get? Real.pi NTheta (k + 1) hk1len] at hk1
    obtain rfl : (k : ℝ) * (2 * Real.pi) / (NTheta : ℝ) = x := by injection hk
    obtain rfl : ((k + 1 : ℕ) : ℝ) * (2 * Real.pi) / (NTheta : ℝ) = y := by injection hk1
    rw [div_sub_div_same]
    congr 1
    push_cast
    ring

/-- Witness for C3 at `NR = 1`, `NTheta = 2`, `LR = 5`: the first
angular entry is `0` and the grid has two entries. -/
theorem thetaGrid_angular_spec_witness :
    (thetaGrid Real.pi 2).get? 0 = some 0 ∧ (thetaGrid Real.pi 2).length = 2 :=
  ⟨(thetaGrid_angular_spec 1 2 5 (by norm_num) (by norm_num)).2.2.1,
   (thetaGrid_angular_spec 1 2 5 (by norm_num) (by norm_num)).1⟩

/-- C4: with a colorbar tick count `k ≥ 2` supplied and non-empty
contour levels running from `a` to `b`, the ticks set on the colorbar
are exactly `k` values linearly spaced from `a` to `b`, both endpoints
included: tick `i` is `a + i * (b - a) / (k - 1)`. -/
theorem cbar_nticks_linspace (levels : List ℝ) (k : ℕ) (a b : ℝ)
    (hh : levels.head? = some a) (hl : levels.getLast? = some b) (hk : 2 ≤ k) :
    cbarTicks levels k = some (linspace a b k) ∧
    (linspace a b k).length = k ∧
    (linspace a b k).get? 0 = some a ∧
    (linspace a b k).get? (k - 1) = some b ∧
    (∀ i, i < k → (linspace a b k).get? i =
      some (a + (i : ℝ) * (b - a) / ((k : ℝ) - 1))) := by
  have hk0 : 0 < k := lt_of_lt_of_le (by norm_num) hk
  have hkr : (2 : ℝ) ≤ (k : ℝ) := by exact_mod_cast hk
  have hne : (k : ℝ) - 1 ≠ 0 := by linarith
  refine ⟨?_, linspace_length a b k, ?_, ?_, fun i hi => linspace_get? a b k i hi⟩
  · rw [cbarTicks, hh, hl]
  · rw [linspace_get? a b k 0 hk0]
    norm_num
  · have hlt : k - 1 < k := Nat.sub_lt hk0 (by norm_num)
    rw [linspace_get? a b k (k - 1) hlt]
    congr 1
    have hcast : ((k - 1 : ℕ) : ℝ) = (k : ℝ) - 1 := by
      have h1 : 1 ≤ k := le_trans (by norm_num) hk
      push_cast [h1]
      ring
    rw [hcast]
    field_simp

/-- Witness for C4 at levels `[0, 6, 12]` and `k = 3`. -/
theorem cbar_nticks_linspace_witness :
    cbarTicks [(0 : ℝ), 6, 12] 3 = some (linspace 0 12 3) ∧
    (linspace (0 : ℝ) 12 3).get? 0 = some 0 ∧
    (linspace (0 : ℝ) 12 3).get? 2 = some 12 :=
  ⟨(cbar_nticks_linspace [(0 : ℝ), 6, 12] 3 0 12 rfl rfl (by norm_num)).1,
   (cbar_nticks_linspace [(0 : ℝ), 6, 12] 3 0 12 rfl rfl (by norm_num)).2.2.1,
   (cbar_nticks_linspace [(0 : ℝ), 6, 12] 3 0 12 rfl rfl (by norm_num)).2.2.2.1⟩

/-! ### Merged action configuration and the `plot_radial` center keys

`plot_radial.actiondefs` (lines 468-494) declares twelve option keys;
`xc` and `yc` are not among them.  `plot_radial.execute` reads its
options from `self.actiondict` (lines 503-516), built by
`mergedicts(inputs, self.actiondefs)`; the reads of `self.actiondict['xc']`
and `self.actiondict['yc']` (lines 515-516) come before the frame loop
(line 525).  Option values are uninterpreted strings here; a Python
`dict[key]` access on a missing key raises `KeyError`, modelled as
`Except.error key`. -/

/-- The declared option keys of `plot_radial.actiondefs` with their
defaults (defaults abstracted to opaque strings; only the key set
matters for the claims below). -/
def plotRadialActiondefs : List (String × String) :=
  [("title", ""), ("plotfunc", "default plotfunc"), ("cmap", "coolwarm"),
   ("cbar", "True"), ("dpi", "125"), ("figsize", "8 5"), ("savefile", ""),
   ("vmin", "None"), ("vmax", "None"), ("LR", "None"), ("NR", "256"),
   ("NTheta", "256")]

/-- Modelled from the spec: `mergedicts` (defined in the
`postproengine` package `__init__`, which is not under `src/`) merges
the user-supplied action options with the declared schema: each
declared key takes the user's value when present and its schema default
otherwise, and user keys outside the schema pass through unchanged.
Modelled as the lookup of the merged mapping. -/
def mergedLookup (user defaults : List (String × String)) (key : String) :
    Option String :=
  match user.lookup key with
  | some v => some v
  | none => defaults.lookup key

/-- Python `self.actiondict[key]`: `KeyError` when the merged mapping
has no entry. -/
def dictGet (user defaults : List (String × String)) (key : String) :
    Except String String :=
  match mergedLookup user defaults key with
  | some v => .ok v
  | none => .error key

/-- The option keys read by `plot_radial.execute`, in source order
(lines 503-516); `xc` and `yc` are read last, still before the frame
loop. -/
def plotRadialReadKeys : List String :=
  ["plotfunc", "title", "cmap", "cbar", "savefile", "dpi", "figsize",
   "NR", "NTheta", "LR", "vmin", "vmax", "xc", "yc"]

/-- Sequential `dict[key]` reads; the first missing key raises. -/
def readAll (user defaults : List (String × String)) :
    List String → Except String (List String)
  | [] => .ok []
  | k :: ks => do
    let v ← dictGet user defaults k
    let r ← readAll user defaults ks
    .ok (v :: r)

/-- `plot_radial.execute`: all configuration reads happen first
(lines 503-516); only if they all succeed does the frame loop run,
abstracted here as the list of frame results it would produce. -/
def plotRadialExecute (user : List (String × String)) (frames : List String) :
    Except String (List String) :=
  (readAll user plotRadialActiondefs plotRadialReadKeys).map (fun _ => frames)

theorem readAll_error_of_missing (user defaults : List (String × String))
    (ks : List String) (k : String) (hk : k ∈ ks)
    (hmiss : mergedLookup user defaults k = none) :
    ∃ k', readAll user defaults ks = .error k' := by
  induction ks with
  | nil => simp at hk
  | cons k0 ks ih =>
    cases hget : dictGet user defaults k0 with
    | error e =>
      refine ⟨e, ?_⟩
      simp only [readAll, hget]
      rfl
    | ok v =>
      rcases List.mem_cons.mp hk with rfl | hk'
      · rw [dictGet, hmiss] at hget
        cases hget
      · obtain ⟨k', hk'eq⟩ := ih hk'
        refine ⟨k', ?_⟩
        simp only [readAll, hget, hk'eq]
        rfl

/-- C10: `xc` and `yc` are absent from the declared `actiondefs`
schema of `plot_radial`, so the merged configuration falls back to the
user mapping alone for them, and whenever the user configuration omits
`xc` or `yc` the `execute` method raises a key-lookup error before any
frame is rendered. -/
theorem plot_radial_missing_center_errors (user : List (String × String))
    (frames : List String)
    (hmiss : user.lookup "xc" = none ∨ user.lookup "yc" = none) :
    "xc" ∉ plotRadialActiondefs.map Prod.fst ∧
    "yc" ∉ plotRadialActiondefs.map Prod.fst ∧
    mergedLookup user plotRadialActiondefs "xc" = user.lookup "xc" ∧
    mergedLookup user plotRadialActiondefs "yc" = user.lookup "yc" ∧
    ∃ k, plotRadialExecute user frames = .error k := by
  have hxc : plotRadialActiondefs.lookup "xc" = none := by rfl
  have hyc : plotRadialActiondefs.lookup "yc" = none := by rfl
  have hmergex : mergedLookup user plotRadialActiondefs "xc" = user.lookup "xc" := by
    rw [mergedLookup, hxc]
    cases user.lookup "xc" <;> rfl
  have hmergey : mergedLookup user plotRadialActiondefs "yc" = user.lookup "yc" := by
    rw [mergedLookup, hyc]
    cases user.lookup "yc" <;> rfl
  refine ⟨by decide, by decide, hmergex, hmergey, ?_⟩
  have hread : ∃ k', readAll user plotRadialActiondefs plotRadialReadKeys = .error k' := by
    rcases hmiss with h | h
    · exact readAll_error_of_missing user plotRadialActiondefs plotRadialReadKeys
        "xc" (by decide) (hmergex.trans h)
    · exact readAll_error_of_missing user plotRadialActiondefs plotRadialReadKeys
        "yc" (by decide) (hmergey.trans h)
  obtain ⟨k', hk'⟩ := hread
  exact ⟨k', by simp [plotRadialExecute, hk', Except.map]⟩

/-- Witness for C10: the example configuration of the module docstring
minus its `xc`/`yc` lines (keys abstracted) fails with a key error. -/
theorem plot_radial_missing_center_errors_witness :
    (List.lookup "xc" [("LR", "89.0"), ("NR", "256"), ("NTheta", "256")] = none ∨
      List.lookup "yc" [("LR", "89.0"), ("NR", "256"), ("NTheta", "256")] = none) ∧
    ∃ k, plotRadialExecute [("LR", "89.0"), ("NR", "256"), ("NTheta", "256")] [] =
      .error k :=
  ⟨Or.inl rfl,
   (plot_radial_missing_center_errors [("LR", "89.0"), ("NR", "256"), ("NTheta", "256")]
     [] (Or.inl rfl)).2.2.2.2⟩

end InstPlanes
